import Mathlib

/-!
# Verification of the document conversion service (`src/backend/server.py`)

A shallow embedding of the Flask request handler `convert_file` and of the
helper functions it calls, together with proofs about the behaviour the
specification describes.

Modelling conventions:
* Strings are Lean `String`s; filesystem paths are the very strings the code
  builds by concatenation, and lexical path resolution (`resolve`) models
  `os.path.normpath`-style segment normalisation.
* `werkzeug.utils.secure_filename` is translated from its library source for
  a POSIX host (`os.sep = '/'`, `os.altsep = None`, `os.name != "nt"`); the
  translation is exact on ASCII inputs (the Unicode NFKD + ascii-encode step
  only affects non-ASCII characters, all of which the final character filter
  removes in this model).
* The ReportLab canvas is modelled by the trace of operations the handler
  issues (`setFont`, `drawString`, `showPage`, `save`); the external
  converters (`pdf2docx.Converter`, the PDF serializer) are opaque
  collaborators, passed in as function parameters where a claim needs them.
* The HTTP layer is modelled by the returned response value; filesystem side
  effects are recorded as an explicit list of steps in the order the handler
  performs them.
-/

/-! ## Character-list helpers -/

/-- Python `str.isspace` characters relevant to `str.split()` (ASCII range). -/
def pyIsSpace (c : Char) : Bool :=
  c == ' ' || c == '\t' || c == '\n' || c == '\r' || c == '\x0b' || c == '\x0c'

/-- The characters kept by werkzeug's `_filename_ascii_strip_re`
(`[^A-Za-z0-9_.-]` is deleted). -/
def allowedChar (c : Char) : Bool :=
  c.isAlpha || c.isDigit || c == '_' || c == '.' || c == '-'

/-- The characters removed from both ends by `.strip("._")`. -/
def stripPred (c : Char) : Bool := c == '.' || c == '_'

/-- Python `str.split()` with no argument: split on runs of whitespace,
discarding empty pieces.  `cur` accumulates the current word reversed. -/
def splitWsAux : List Char → List Char → List (List Char)
  | [], cur => if cur.isEmpty then [] else [cur.reverse]
  | c :: cs, cur =>
    if pyIsSpace c then
      if cur.isEmpty then splitWsAux cs [] else cur.reverse :: splitWsAux cs []
    else splitWsAux cs (c :: cur)

/-- Python `s.strip("._")`: drop the characters of `stripPred` from both ends. -/
def stripEnds (l : List Char) : List Char :=
  ((l.dropWhile stripPred).reverse.dropWhile stripPred).reverse

/-- `werkzeug.utils.secure_filename` on a POSIX host:
replace `os.sep` (`'/'`) by a space, `"_".join(filename.split())`,
delete every character outside `[A-Za-z0-9_.-]`, then `.strip("._")`. -/
def secure_filename (s : String) : String :=
  let replaced := s.data.map (fun c => if c == '/' then ' ' else c)
  let joined := List.intercalate ['_'] (splitWsAux replaced [])
  String.mk (stripEnds (joined.filter allowedChar))

/-- Python `filename.split('.')[0]`: the part of the string before the first
dot (the whole string when there is no dot). -/
def beforeFirstDot (s : String) : String :=
  String.mk (s.data.takeWhile (fun c => c != '.'))

/-! ## Lexical path model -/

/-- Split a character list on a separator, keeping empty pieces
(the semantics of repeated `str.split(sep)` / POSIX path components). -/
def splitChars (sep : Char) : List Char → List (List Char)
  | [] => [[]]
  | c :: cs =>
    if c = sep then [] :: splitChars sep cs
    else
      match splitChars sep cs with
      | [] => [[c]]
      | s :: ss => (c :: s) :: ss

/-- Lexical resolution of the components of an absolute path, in the style of
`os.path.normpath`: empty components and `"."` are skipped, `".."` pops the
last resolved component (staying at the root when there is none), and any
other component is pushed.  `acc` holds the resolved components reversed. -/
def resolve : List (List Char) → List (List Char) → List (List Char)
  | acc, [] => acc.reverse
  | acc, s :: rest =>
    if s = [] ∨ s = ['.'] then resolve acc rest
    else if s = ['.', '.'] then resolve acc.tail rest
    else resolve (s :: acc) rest

/-- `os.path.basename`: everything after the last `'/'`. -/
def basename (s : String) : String :=
  String.mk ((s.data.reverse.takeWhile (fun c => c != '/')).reverse)

/-! ## ReportLab canvas trace -/

/-- One operation issued to the ReportLab canvas. -/
inductive CanvasOp where
  | setFont (fontName : String) (size : Nat)
  | drawString (x y : Int) (text : String)
  | showPage
  | save
  deriving DecidableEq

/-- The paragraph loop of the `docx-to-pdf` branch
(`server.py`, lines 60–68): draw the paragraph at `(50, y)`, move `y` down by
20, and when `y` drops below 50 emit a page break, reset the font and restart
at `y = 800`. -/
def renderLoop : List String → Int → List CanvasOp
  | [], _ => []
  | p :: rest, y =>
    CanvasOp.drawString 50 y p ::
      (if y - 20 < 50 then
        CanvasOp.showPage :: CanvasOp.setFont "Helvetica" 12 :: renderLoop rest 800
      else
        renderLoop rest (y - 20))

/-- The whole canvas trace of the `docx-to-pdf` branch: initial
`setFont("Helvetica", 12)`, the paragraph loop from `y = 800`, final `save`. -/
def renderDocx (paras : List String) : List CanvasOp :=
  CanvasOp.setFont "Helvetica" 12 :: (renderLoop paras 800 ++ [CanvasOp.save])

/-- The text-drawing operations of a trace, as `(x, y, text)` triples. -/
def draws (ops : List CanvasOp) : List (Int × Int × String) :=
  ops.filterMap (fun op =>
    match op with
    | CanvasOp.drawString x y t => some (x, y, t)
    | _ => none)

/-- Every `setFont` in the trace uses Helvetica at size 12. -/
def fontOk : CanvasOp → Bool
  | CanvasOp.setFont n s => n == "Helvetica" && s == 12
  | _ => true

/-- The vertical position at which the `k`-th paragraph (0-based) is drawn. -/
def yAt (k : Nat) : Int := 800 - 20 * ((k % 38 : Nat) : Int)

/-- The number of pages ReportLab writes for a trace of canvas operations:
`showPage` always emits the current page (blank or not) and starts a new
one; `setFont` and `drawString` both append code to the current page;
`Canvas.save` performs a final `showPage` exactly when code is pending on
the current page, then closes the document (nothing after `save` counts).
The Boolean argument records whether the current page has pending code. -/
def pdfPages : List CanvasOp → Bool → Nat
  | [], _ => 0
  | CanvasOp.showPage :: rest, _ => 1 + pdfPages rest false
  | CanvasOp.setFont _ _ :: rest, _ => pdfPages rest true
  | CanvasOp.drawString _ _ _ :: rest, _ => pdfPages rest true
  | CanvasOp.save :: _, code => if code then 1 else 0

/-! ## The request handler -/

/-- `BASE_DIR = os.path.dirname(os.path.abspath(__file__))`.  The concrete
mount point is deployment specific; any fixed absolute directory models it. -/
def BASE_DIR : String := "/backend"

/-- `os.path.join(BASE_DIR, "uploads")`. -/
def UPLOAD_FOLDER : String := BASE_DIR ++ "/uploads"

/-- `os.path.join(BASE_DIR, "converted")`. -/
def CONVERTED_FOLDER : String := BASE_DIR ++ "/converted"

/-- The OOXML word-processing mimetype used for `.docx` responses. -/
def OOXML_MIME : String :=
  "application/vnd.openxmlformats-officedocument.wordprocessingml.document"

/-- The inputs a single `POST /convert` request supplies to the handler,
together with the environment facts the handler observes:
`fileField` is the original filename when the `file` part is present,
`fileBytes` its content, `typeField` the form field `type`
(`request.form.get` yields `none` when absent), `docxParas` the paragraph
texts `Document(filepath).paragraphs` yields when the upload is read as a
DOCX, `token` the value of `uuid.uuid4().hex`, and `artifactSize` the state
of the converted path after the conversion call (`none` when
`os.path.exists` is false, `some n` for an existing file of `n` bytes). -/
structure ReqEnv where
  fileField : Option String
  fileBytes : List Nat
  typeField : Option String
  docxParas : List String
  token : String
  artifactSize : Option Nat
  deriving DecidableEq

/-- The HTTP response of the handler: a JSON error body or a streamed file. -/
inductive HttpResponse where
  | json (status : Nat) (msg : String)
  | fileResp (status : Nat) (path downloadName mimetype : String)
  deriving DecidableEq

/-- A filesystem side effect of the handler, in execution order. -/
inductive Step where
  | saved (path : String)
  | pdf2docxConvert (src dst : String)
  | canvas (dst : String) (ops : List CanvasOp)
  deriving DecidableEq

/-- Lines 75–88 of `server.py`: if the converted path exists, stream it with
`send_file` (status 200, `download_name = os.path.basename(converted_path)`,
mimetype chosen from the conversion type); otherwise raise
`FileNotFoundError`, which the top-level handler turns into a 500 JSON
response.  The file's size is printed but never validated. -/
def respond (env : ReqEnv) (converted_path conversion_type : String) : HttpResponse :=
  if env.artifactSize.isSome then
    HttpResponse.fileResp 200 converted_path (basename converted_path)
      (if conversion_type == "docx-to-pdf" then "application/pdf" else OOXML_MIME)
  else
    HttpResponse.json 500 ("Conversion failed: Converted file not found: " ++ converted_path)

/-- The `POST /convert` handler (`server.py`, lines 22–91): validation,
upload storage, dispatch on the conversion type, and the response, paired
with the list of filesystem effects in the order they occur. -/
def convert_file (env : ReqEnv) : HttpResponse × List Step :=
  match env.fileField with
  | none => (HttpResponse.json 400 "No file uploaded", [])
  | some origName =>
    let conversion_type := env.typeField.getD ""
    if conversion_type == "" then
      (HttpResponse.json 400 "Conversion type not specified", [])
    else
      let filename := secure_filename origName
      let filepath := UPLOAD_FOLDER ++ "/" ++ filename
      let unique_filename := beforeFirstDot filename ++ "-" ++ env.token
      if conversion_type == "pdf-to-docx" then
        let converted_path := CONVERTED_FOLDER ++ "/" ++ unique_filename ++ ".docx"
        (respond env converted_path conversion_type,
          [Step.saved filepath, Step.pdf2docxConvert filepath converted_path])
      else if conversion_type == "docx-to-pdf" then
        let converted_path := CONVERTED_FOLDER ++ "/" ++ unique_filename ++ ".pdf"
        (respond env converted_path conversion_type,
          [Step.saved filepath, Step.canvas converted_path (renderDocx env.docxParas)])
      else
        (HttpResponse.json 400 "Invalid conversion type", [Step.saved filepath])

/-- Whether a response is a successful file download. -/
def HttpResponse.is200File : HttpResponse → Bool
  | HttpResponse.fileResp status _ _ _ => status == 200
  | HttpResponse.json _ _ => false

/-- The request passes validation and dispatches to one of the two
converters, hence reaches the response-sending step. -/
def reachesSend (env : ReqEnv) : Bool :=
  env.fileField.isSome &&
    (env.typeField.getD "" == "pdf-to-docx" || env.typeField.getD "" == "docx-to-pdf")

/-- A string free of `'/'` (true of every `uuid4().hex` token). -/
def noSlash (s : String) : Bool := s.data.all (fun c => c != '/')

/-- The bytes of the converted artifact, as a function of the request inputs
and of the two opaque collaborators: `p2d` is the external
`pdf2docx` conversion (bytes of the source PDF to bytes of the DOCX) and
`ser` the ReportLab serialisation of a canvas trace to PDF bytes. -/
def artifactBytes (p2d : List Nat → List Nat) (ser : List CanvasOp → List Nat)
    (env : ReqEnv) : Option (List Nat) :=
  match env.fileField with
  | none => none
  | some _ =>
    let conversion_type := env.typeField.getD ""
    if conversion_type == "" then none
    else if conversion_type == "pdf-to-docx" then some (p2d env.fileBytes)
    else if conversion_type == "docx-to-pdf" then some (ser (renderDocx env.docxParas))
    else none

/-- Modelled from the spec's words (§3): the artifact is named
`\x7bsanitizedBaseName\x7d-\x7brandomToken\x7d.\x7bext\x7d` where `sanitizedBaseName` is the
sanitized filename with its extension removed, i.e. everything before the
LAST dot (the whole name when it has no dot). -/
def baseNameMinusExt (s : String) : String :=
  if '.' ∈ s.data then
    String.mk (((s.data.reverse.dropWhile (fun c => c != '.')).drop 1).reverse)
  else s

/-- The statement of claim C2 as written: a `200` file response is only sent
after the artifact was confirmed to exist AND to have non-empty size. -/
def sizeConfirmedBeforeSend : Prop :=
  ∀ (env : ReqEnv) (p nm mt : String),
    (convert_file env).1 = HttpResponse.fileResp 200 p nm mt →
    ∃ n, env.artifactSize = some n ∧ 0 < n

/-- The statement of claim C5 as written: the download name of every
successful conversion is the sanitized base name MINUS ITS EXTENSION,
a hyphen, the random token, and the target extension. -/
def artifactNamedFromBase : Prop :=
  ∀ (env : ReqEnv) (orig p nm mt : String),
    env.fileField = some orig →
    (convert_file env).1 = HttpResponse.fileResp 200 p nm mt →
    nm = baseNameMinusExt (secure_filename orig) ++ "-" ++ env.token
      ++ (if env.typeField = some "pdf-to-docx" then ".docx" else ".pdf")

/-- The statement of claim C6 as written, with the per-page line capacity
being 38 — the number of lines the renderer places on a page before its
page break fires: every count N with 1 ≤ N ≤ 38 yields a one-page PDF and
39 paragraphs yield a two-page PDF. -/
def onePageWithinCapacity : Prop :=
  ∀ paras1 paras2 : List String, 1 ≤ paras1.length → paras1.length ≤ 38 →
    paras2.length = 39 →
    pdfPages (renderDocx paras1) false = 1 ∧ pdfPages (renderDocx paras2) false = 2

/-! ## Basic string and list lemmas -/

lemma strDataAppend (s t : String) : (s ++ t).data = s.data ++ t.data := by
  cases s; cases t; rfl

lemma strMkData (s : String) : String.mk s.data = s := by
  cases s; rfl

lemma strEqOfData {s t : String} (h : s.data = t.data) : s = t := by
  cases s; cases t; exact congrArg String.mk h

lemma mem_of_dropWhile {p : Char → Bool} {l : List Char} {c : Char}
    (h : c ∈ l.dropWhile p) : c ∈ l := by
  rw [← List.takeWhile_append_dropWhile p l]
  exact List.mem_append_right _ h

lemma mem_of_takeWhile {p : Char → Bool} {l : List Char} {c : Char}
    (h : c ∈ l.takeWhile p) : c ∈ l := by
  rw [← List.takeWhile_append_dropWhile p l]
  exact List.mem_append_left _ h

lemma head_dropWhileChar (p : Char → Bool) (l : List Char) {c : Char}
    (h : (l.dropWhile p).head? = some c) : p c = false := by
  induction l with
  | nil => simp [List.dropWhile] at h
  | cons a as ih =>
    rw [List.dropWhile_cons] at h
    by_cases hpa : p a = true
    · rw [if_pos hpa] at h; exact ih h
    · rw [if_neg hpa] at h
      simp only [List.head?_cons, Option.some.injEq] at h
      subst h
      exact eq_false_of_ne_true hpa

lemma takeWhile_append_of_all {p : Char → Bool} {l1 : List Char} (l2 : List Char)
    (h : ∀ c ∈ l1, p c = true) {c0 : Char} (hc : p c0 = false) :
    (l1 ++ c0 :: l2).takeWhile p = l1 := by
  induction l1 with
  | nil => simp [List.takeWhile_cons, hc]
  | cons a as ih =>
    have ha : p a = true := h a (by simp)
    simp [List.takeWhile_cons, ha, ih (fun x hx => h x (by simp [hx]))]

/-! ## Properties of `secure_filename` -/

lemma mem_stripEnds {l : List Char} {c : Char} (h : c ∈ stripEnds l) : c ∈ l := by
  unfold stripEnds at h
  rw [List.mem_reverse] at h
  have h1 := mem_of_dropWhile h
  rw [List.mem_reverse] at h1
  exact mem_of_dropWhile h1

lemma stripEnds_split (l : List Char) :
    l.dropWhile stripPred
      = stripEnds l ++ ((l.dropWhile stripPred).reverse.takeWhile stripPred).reverse := by
  unfold stripEnds
  conv_lhs => rw [← List.reverse_reverse (l.dropWhile stripPred)]
  rw [← List.takeWhile_append_dropWhile stripPred (l.dropWhile stripPred).reverse,
    List.reverse_append]
  simp

lemma head_stripEnds {l : List Char} {c : Char}
    (h : (stripEnds l).head? = some c) : stripPred c = false := by
  cases hg : stripEnds l with
  | nil => rw [hg] at h; simp at h
  | cons a g2 =>
    rw [hg] at h
    simp only [List.head?_cons, Option.some.injEq] at h
    subst h
    have hf : (l.dropWhile stripPred).head? = some a := by
      rw [stripEnds_split l, hg]; rfl
    exact head_dropWhileChar stripPred l hf

lemma secure_filename_allowed {s : String} {c : Char}
    (h : c ∈ (secure_filename s).data) : allowedChar c = true := by
  have h' : c ∈ stripEnds ((List.intercalate ['_']
      (splitWsAux (s.data.map (fun c => if c == '/' then ' ' else c)) [])).filter
        allowedChar) := h
  exact (List.mem_filter.mp (mem_stripEnds h')).2

lemma secure_filename_no_sep {s : String} {c : Char}
    (h : c ∈ (secure_filename s).data) : c ≠ '/' := by
  intro heq
  subst heq
  exact absurd (secure_filename_allowed h) (by decide)

lemma secure_filename_noSlash (s : String) : noSlash (secure_filename s) = true := by
  unfold noSlash
  rw [List.all_eq_true]
  intro c hc
  simpa [bne_iff_ne] using secure_filename_no_sep hc

lemma secure_filename_no_nav (s : String) :
    (secure_filename s).data ≠ ['.'] ∧ (secure_filename s).data ≠ ['.', '.'] := by
  constructor <;> intro h
  · have hh : (secure_filename s).data.head? = some '.' := by rw [h]; rfl
    have := head_stripEnds (l := (List.intercalate ['_']
      (splitWsAux (s.data.map (fun c => if c == '/' then ' ' else c)) [])).filter
        allowedChar) hh
    simp [stripPred] at this
  · have hh : (secure_filename s).data.head? = some '.' := by rw [h]; rfl
    have := head_stripEnds (l := (List.intercalate ['_']
      (splitWsAux (s.data.map (fun c => if c == '/' then ' ' else c)) [])).filter
        allowedChar) hh
    simp [stripPred] at this

/-! ## Properties of the path model -/

lemma splitChars_ne_nil (sep : Char) (l : List Char) : splitChars sep l ≠ [] := by
  induction l with
  | nil => simp [splitChars]
  | cons c cs ih =>
    simp only [splitChars]
    by_cases h : c = sep
    · simp [h]
    · simp only [if_neg h]
      cases hs : splitChars sep cs with
      | nil => simp
      | cons s ss => simp

lemma splitChars_no_sep {sep : Char} {l : List Char} (h : ∀ c ∈ l, c ≠ sep) :
    splitChars sep l = [l] := by
  induction l with
  | nil => rfl
  | cons c cs ih =>
    have hc : c ≠ sep := h c (by simp)
    have hrest : splitChars sep cs = [cs] := ih (fun x hx => h x (by simp [hx]))
    simp [splitChars, if_neg hc, hrest]

lemma splitChars_cons_sep (sep : Char) (cs : List Char) :
    splitChars sep (sep :: cs) = [] :: splitChars sep cs := by
  simp [splitChars]

lemma splitChars_cons_ne (sep c : Char) (cs : List Char) (h : ¬ c = sep) :
    splitChars sep (c :: cs)
      = match splitChars sep cs with
        | [] => [[c]]
        | s :: ss => (c :: s) :: ss := by
  simp [splitChars, h]

lemma splitChars_append (sep : Char) (l1 l2 : List Char) :
    splitChars sep (l1 ++ sep :: l2) = splitChars sep l1 ++ splitChars sep l2 := by
  induction l1 with
  | nil => simp [splitChars]
  | cons c cs ih =>
    by_cases h : c = sep
    · subst h
      rw [List.cons_append, splitChars_cons_sep, splitChars_cons_sep, ih]
      rfl
    · rw [List.cons_append, splitChars_cons_ne sep c _ h, splitChars_cons_ne sep c cs h, ih]
      cases hs : splitChars sep cs with
      | nil => exact absurd hs (splitChars_ne_nil sep cs)
      | cons s ss => simp [hs]

lemma resolve_end (acc : List (List Char)) : resolve acc [] = acc.reverse := rfl

lemma resolve_skip (acc : List (List Char)) (s : List Char) (rest : List (List Char))
    (h : s = [] ∨ s = ['.']) : resolve acc (s :: rest) = resolve acc rest := by
  simp only [resolve]
  rw [if_pos h]

lemma resolve_push (acc : List (List Char)) (s : List Char) (rest : List (List Char))
    (h1 : ¬(s = [] ∨ s = ['.'])) (h2 : s ≠ ['.', '.']) :
    resolve acc (s :: rest) = resolve (s :: acc) rest := by
  simp only [resolve]
  rw [if_neg h1, if_neg h2]

lemma basename_append (dir u : String) (hu : ∀ c ∈ u.data, c ≠ '/') :
    basename (dir ++ "/" ++ u) = u := by
  unfold basename
  have hdata : (dir ++ "/" ++ u).data = dir.data ++ '/' :: u.data := by
    rw [strDataAppend, strDataAppend]
    simp
  rw [hdata]
  have hrev : (dir.data ++ '/' :: u.data).reverse
      = u.data.reverse ++ '/' :: dir.data.reverse := by
    simp
  rw [hrev, takeWhile_append_of_all dir.data.reverse
    (fun c hc => by simpa [bne_iff_ne] using hu c (List.mem_reverse.mp hc)) (by decide)]
  simp [strMkData]

/-! ## Properties of the DOCX-to-PDF renderer -/

lemma draws_cons_draw (x y : Int) (t : String) (rest : List CanvasOp) :
    draws (CanvasOp.drawString x y t :: rest) = (x, y, t) :: draws rest := by
  simp [draws]

lemma draws_cons_show (rest : List CanvasOp) :
    draws (CanvasOp.showPage :: rest) = draws rest := by
  simp [draws]

lemma draws_cons_font (n : String) (s : Nat) (rest : List CanvasOp) :
    draws (CanvasOp.setFont n s :: rest) = draws rest := by
  simp [draws]

lemma draws_append (l1 l2 : List CanvasOp) : draws (l1 ++ l2) = draws l1 ++ draws l2 := by
  simp [draws, List.filterMap_append]

lemma draws_renderLoop (paras : List String) (j : Nat) (hj : j < 38) :
    draws (renderLoop paras (800 - 20 * (j : Int)))
      = (List.range paras.length).map (fun k => ((50 : Int), yAt (j + k), paras.getD k "")) := by
  induction paras generalizing j with
  | nil => simp [renderLoop, draws]
  | cons p rest ih =>
    simp only [renderLoop]
    by_cases h37 : j = 37
    · subst h37
      rw [if_pos (by norm_num)]
      rw [draws_cons_draw, draws_cons_show, draws_cons_font]
      have h0 := ih 0 (by norm_num)
      norm_num at h0
      rw [h0]
      rw [List.length_cons, List.range_succ_eq_map, List.map_cons, List.map_map]
      refine congrArg₂ List.cons ?_ ?_
      · norm_num [yAt]
      · refine congrArg (fun f => List.map f (List.range rest.length)) (funext fun k => ?_)
        simp only [Function.comp_apply, yAt, List.getD_cons_succ, List.getD_eq_getElem?_getD,
          Nat.succ_eq_add_one, List.getElem?_cons_succ]
        rw [show 37 + (k + 1) = 38 + k from by omega, Nat.add_mod_left]
    · have hj37 : j < 37 := by omega
      rw [if_neg (by omega)]
      rw [draws_cons_draw]
      rw [show (800 : Int) - 20 * (j : Int) - 20 = 800 - 20 * ((j + 1 : Nat) : Int) from by
        push_cast; ring]
      rw [ih (j + 1) (by omega)]
      rw [List.length_cons, List.range_succ_eq_map, List.map_cons, List.map_map]
      refine congrArg₂ List.cons ?_ ?_
      · simp [yAt, Nat.mod_eq_of_lt hj]
      · refine congrArg (fun f => List.map f (List.range rest.length)) (funext fun k => ?_)
        simp only [Function.comp_apply, List.getD_cons_succ]
        rw [show j + 1 + k = j + (k + 1) from by omega]

lemma fontOk_renderLoop (paras : List String) (y : Int) :
    (renderLoop paras y).all fontOk = true := by
  induction paras generalizing y with
  | nil => rfl
  | cons p rest ih =>
    simp only [renderLoop]
    by_cases h : y - 20 < 50
    · simp [h, fontOk, ih]
    · simp [h, fontOk, ih]

lemma fontOk_renderDocx (paras : List String) : (renderDocx paras).all fontOk = true := by
  simp [renderDocx, fontOk, fontOk_renderLoop]

lemma pdfPages_renderLoop (paras : List String) (j : Nat) (hj : j < 38) :
    pdfPages (renderLoop paras (800 - 20 * (j : Int)) ++ [CanvasOp.save]) true
      = (paras.length + j) / 38 + 1 := by
  induction paras generalizing j with
  | nil =>
    simp only [renderLoop, List.nil_append, pdfPages, List.length_nil, eq_self_iff_true,
      if_true]
    omega
  | cons p rest ih =>
    have hmain : pdfPages
        ((if (800 : Int) - 20 * (j : Int) - 20 < 50 then
            CanvasOp.showPage :: CanvasOp.setFont "Helvetica" 12 :: renderLoop rest 800
          else renderLoop rest (800 - 20 * (j : Int) - 20)) ++ [CanvasOp.save]) true
        = ((rest.length + 1) + j) / 38 + 1 := by
      by_cases h37 : j = 37
      · subst h37
        rw [if_pos (by norm_num)]
        simp only [List.cons_append, pdfPages, List.append_eq]
        rw [show (800 : Int) = 800 - 20 * ((0 : Nat) : Int) from by norm_num]
        rw [ih 0 (by norm_num)]
        omega
      · have hj37 : j < 37 := by omega
        rw [if_neg (by omega)]
        rw [show (800 : Int) - 20 * (j : Int) - 20 = 800 - 20 * ((j + 1 : Nat) : Int) from by
          push_cast; ring]
        rw [ih (j + 1) (by omega)]
        omega
    simp only [renderLoop, List.cons_append, pdfPages, List.append_eq] at hmain ⊢
    rw [hmain, List.length_cons]

lemma pdfPages_renderDocx (paras : List String) :
    pdfPages (renderDocx paras) false = paras.length / 38 + 1 := by
  unfold renderDocx
  have h := pdfPages_renderLoop paras 0 (by norm_num)
  norm_num at h
  simpa only [pdfPages] using h


/-! ## Branch lemmas for the handler -/

lemma convert_file_noFile (env : ReqEnv) (h : env.fileField = none) :
    convert_file env = (HttpResponse.json 400 "No file uploaded", []) := by
  unfold convert_file
  rw [h]

lemma convert_file_noType (env : ReqEnv) (orig : String) (hf : env.fileField = some orig)
    (ht : env.typeField.getD "" = "") :
    convert_file env = (HttpResponse.json 400 "Conversion type not specified", []) := by
  unfold convert_file
  rw [hf]
  simp [ht]

lemma convert_file_invalid (env : ReqEnv) (orig t : String)
    (hf : env.fileField = some orig) (ht : env.typeField = some t) (ht0 : t ≠ "")
    (hp : t ≠ "pdf-to-docx") (hd : t ≠ "docx-to-pdf") :
    convert_file env = (HttpResponse.json 400 "Invalid conversion type",
      [Step.saved (UPLOAD_FOLDER ++ "/" ++ secure_filename orig)]) := by
  unfold convert_file
  rw [hf, ht]
  simp [ht0, hp, hd]

lemma convert_file_p2d (env : ReqEnv) (orig : String) (hf : env.fileField = some orig)
    (ht : env.typeField = some "pdf-to-docx") :
    convert_file env =
      (respond env (CONVERTED_FOLDER ++ "/"
          ++ (beforeFirstDot (secure_filename orig) ++ "-" ++ env.token) ++ ".docx")
        "pdf-to-docx",
       [Step.saved (UPLOAD_FOLDER ++ "/" ++ secure_filename orig),
        Step.pdf2docxConvert (UPLOAD_FOLDER ++ "/" ++ secure_filename orig)
          (CONVERTED_FOLDER ++ "/"
            ++ (beforeFirstDot (secure_filename orig) ++ "-" ++ env.token) ++ ".docx")]) := by
  unfold convert_file
  rw [hf, ht]
  rfl

lemma convert_file_d2p (env : ReqEnv) (orig : String) (hf : env.fileField = some orig)
    (ht : env.typeField = some "docx-to-pdf") :
    convert_file env =
      (respond env (CONVERTED_FOLDER ++ "/"
          ++ (beforeFirstDot (secure_filename orig) ++ "-" ++ env.token) ++ ".pdf")
        "docx-to-pdf",
       [Step.saved (UPLOAD_FOLDER ++ "/" ++ secure_filename orig),
        Step.canvas (CONVERTED_FOLDER ++ "/"
            ++ (beforeFirstDot (secure_filename orig) ++ "-" ++ env.token) ++ ".pdf")
          (renderDocx env.docxParas)]) := by
  unfold convert_file
  rw [hf, ht]
  rfl

lemma noSlash_mem {t : String} (h : noSlash t = true) {c : Char} (hc : c ∈ t.data) :
    c ≠ '/' := by
  unfold noSlash at h
  rw [List.all_eq_true] at h
  simpa [bne_iff_ne] using h c hc

lemma beforeFirstDot_no_sep {s : String} {c : Char}
    (hc : c ∈ (beforeFirstDot (secure_filename s)).data) : c ≠ '/' := by
  have h1 : c ∈ ((secure_filename s).data.takeWhile (fun c => c != '.')) := hc
  exact secure_filename_no_sep (mem_of_takeWhile h1)

lemma uniqueName_no_sep (orig token ext : String) (htok : noSlash token = true)
    (hext : ∀ c ∈ ext.data, c ≠ '/') :
    ∀ c ∈ ((beforeFirstDot (secure_filename orig) ++ "-" ++ token) ++ ext).data, c ≠ '/' := by
  intro c hc
  rw [strDataAppend] at hc
  rcases List.mem_append.mp hc with hc | hc
  · rw [strDataAppend] at hc
    rcases List.mem_append.mp hc with hc | hc
    · rw [strDataAppend] at hc
      rcases List.mem_append.mp hc with hc | hc
      · exact beforeFirstDot_no_sep hc
      · simp only [show ("-" : String).data = ['-'] from rfl, List.mem_singleton] at hc
        subst hc
        decide
    · exact noSlash_mem htok hc
  · exact hext c hc

lemma basename_converted (u : String) (hu : ∀ c ∈ u.data, c ≠ '/') (ext : String)
    (hext : ∀ c ∈ ext.data, c ≠ '/') :
    basename (CONVERTED_FOLDER ++ "/" ++ u ++ ext) = u ++ ext := by
  have hassoc : CONVERTED_FOLDER ++ "/" ++ u ++ ext = CONVERTED_FOLDER ++ "/" ++ (u ++ ext) := by
    apply strEqOfData
    simp [strDataAppend]
  rw [hassoc]
  refine basename_append CONVERTED_FOLDER (u ++ ext) ?_
  intro c hc
  rw [strDataAppend] at hc
  rcases List.mem_append.mp hc with hc | hc
  · exact hu c hc
  · exact hext c hc

lemma fileResp_shape (env : ReqEnv) (orig p nm mt : String)
    (hf : env.fileField = some orig)
    (h : (convert_file env).1 = HttpResponse.fileResp 200 p nm mt) :
    env.artifactSize.isSome = true ∧
      ((env.typeField = some "pdf-to-docx"
          ∧ p = CONVERTED_FOLDER ++ "/"
              ++ (beforeFirstDot (secure_filename orig) ++ "-" ++ env.token) ++ ".docx"
          ∧ nm = basename p ∧ mt = OOXML_MIME)
        ∨ (env.typeField = some "docx-to-pdf"
          ∧ p = CONVERTED_FOLDER ++ "/"
              ++ (beforeFirstDot (secure_filename orig) ++ "-" ++ env.token) ++ ".pdf"
          ∧ nm = basename p ∧ mt = "application/pdf")) := by
  cases ht : env.typeField with
  | none =>
    rw [convert_file_noType env orig hf (by rw [ht]; rfl)] at h
    simp at h
  | some t =>
    by_cases ht0 : t = ""
    · rw [convert_file_noType env orig hf (by rw [ht, ht0]; rfl)] at h
      simp at h
    · by_cases hp : t = "pdf-to-docx"
      · subst hp
        rw [convert_file_p2d env orig hf ht] at h
        replace h : respond env (CONVERTED_FOLDER ++ "/"
            ++ (beforeFirstDot (secure_filename orig) ++ "-" ++ env.token) ++ ".docx")
            "pdf-to-docx" = HttpResponse.fileResp 200 p nm mt := h
        unfold respond at h
        by_cases hs : env.artifactSize.isSome = true
        · rw [if_pos hs, if_neg (by decide)] at h
          simp only [HttpResponse.fileResp.injEq] at h
          obtain ⟨-, hpath, hnm, hmt⟩ := h
          subst hpath
          subst hnm
          subst hmt
          exact ⟨hs, Or.inl ⟨rfl, rfl, rfl, rfl⟩⟩
        · rw [if_neg hs] at h
          simp at h
      · by_cases hd : t = "docx-to-pdf"
        · subst hd
          rw [convert_file_d2p env orig hf ht] at h
          replace h : respond env (CONVERTED_FOLDER ++ "/"
              ++ (beforeFirstDot (secure_filename orig) ++ "-" ++ env.token) ++ ".pdf")
              "docx-to-pdf" = HttpResponse.fileResp 200 p nm mt := h
          unfold respond at h
          by_cases hs : env.artifactSize.isSome = true
          · rw [if_pos hs, if_pos (by decide)] at h
            simp only [HttpResponse.fileResp.injEq] at h
            obtain ⟨-, hpath, hnm, hmt⟩ := h
            subst hpath
            subst hnm
            subst hmt
            exact ⟨hs, Or.inr ⟨rfl, rfl, rfl, rfl⟩⟩
          · rw [if_neg hs] at h
            simp at h
        · rw [convert_file_invalid env orig t hf ht ht0 hp hd] at h
          simp at h

lemma downloadName_shape (env : ReqEnv) (orig p nm mt : String)
    (hf : env.fileField = some orig) (htok : noSlash env.token = true)
    (h : (convert_file env).1 = HttpResponse.fileResp 200 p nm mt) :
    nm = beforeFirstDot (secure_filename orig) ++ "-" ++ env.token
      ++ (if env.typeField = some "pdf-to-docx" then ".docx" else ".pdf") := by
  obtain ⟨-, hcase | hcase⟩ := fileResp_shape env orig p nm mt hf h
  · obtain ⟨ht, hpath, hnm, -⟩ := hcase
    rw [if_pos ht]
    rw [hnm, hpath]
    exact basename_converted _ (fun c hc => by
        rcases List.mem_append.mp (by rw [← strDataAppend]; exact hc : c ∈
          (beforeFirstDot (secure_filename orig) ++ "-").data ++ env.token.data) with hc2 | hc2
        · rcases List.mem_append.mp (by rw [← strDataAppend]; exact hc2 : c ∈
            (beforeFirstDot (secure_filename orig)).data ++ ("-" : String).data) with hc3 | hc3
          · exact beforeFirstDot_no_sep hc3
          · simp only [show ("-" : String).data = ['-'] from rfl, List.mem_singleton] at hc3
            subst hc3
            decide
        · exact noSlash_mem htok hc2)
      ".docx" (by intro c hc; fin_cases hc <;> decide)
  · obtain ⟨ht, hpath, hnm, -⟩ := hcase
    rw [if_neg (by rw [ht]; simp)]
    rw [hnm, hpath]
    exact basename_converted _ (fun c hc => by
        rcases List.mem_append.mp (by rw [← strDataAppend]; exact hc : c ∈
          (beforeFirstDot (secure_filename orig) ++ "-").data ++ env.token.data) with hc2 | hc2
        · rcases List.mem_append.mp (by rw [← strDataAppend]; exact hc2 : c ∈
            (beforeFirstDot (secure_filename orig)).data ++ ("-" : String).data) with hc3 | hc3
          · exact beforeFirstDot_no_sep hc3
          · simp only [show ("-" : String).data = ['-'] from rfl, List.mem_singleton] at hc3
            subst hc3
            decide
        · exact noSlash_mem htok hc2)
      ".pdf" (by intro c hc; fin_cases hc <;> decide)

/-! ## The claims -/

/-- Claim C1: for every DOCX input with N paragraphs converted with
`docx-to-pdf`, the renderer emits exactly N text-drawing operations, one per
paragraph, in source order, at `x = 50` with the vertical offset decreasing
by the fixed line height 20 per paragraph and resetting every 38 lines
(the page capacity), and every font selection is Helvetica at the fixed
size 12. -/
theorem C1_docx_renderer (paras : List String) :
    (draws (renderDocx paras)).length = paras.length
      ∧ draws (renderDocx paras)
        = (List.range paras.length).map (fun k => ((50 : Int), yAt k, paras.getD k ""))
      ∧ (renderDocx paras).all fontOk = true := by
  have hdraw : draws (renderDocx paras)
      = (List.range paras.length).map (fun k => ((50 : Int), yAt k, paras.getD k "")) := by
    unfold renderDocx
    rw [draws_cons_font, draws_append]
    have h := draws_renderLoop paras 0 (by norm_num)
    norm_num at h
    rw [show draws [CanvasOp.save] = [] from rfl, List.append_nil]
    simpa [List.getD_eq_getElem?_getD] using h
  exact ⟨by rw [hdraw]; simp, hdraw, fontOk_renderDocx paras⟩


/-- Claim C8: a request with a file part and a present, non-empty `type`
value outside the two recognized literals gets a 400 JSON response
mentioning "Invalid conversion type". -/
theorem C8_unrecognized_type_400 (env : ReqEnv) (orig t : String)
    (hf : env.fileField = some orig) (ht : env.typeField = some t) (ht0 : t ≠ "")
    (hp : t ≠ "pdf-to-docx") (hd : t ≠ "docx-to-pdf") :
    (convert_file env).1 = HttpResponse.json 400 "Invalid conversion type" := by
  rw [convert_file_invalid env orig t hf ht ht0 hp hd]

/-- Witness for C8 at the unrecognized type value `"zip-to-pdf"`. -/
theorem C8_unrecognized_type_400_witness :
    (convert_file ⟨some "a.docx", [], some "zip-to-pdf", [], "t0", none⟩).1
      = HttpResponse.json 400 "Invalid conversion type" :=
  C8_unrecognized_type_400 _ "a.docx" "zip-to-pdf" rfl rfl (by decide) (by decide) (by decide)

/-- Claim C9: a request with no file part gets a 400 JSON response
mentioning "No file uploaded", with an empty effect list: nothing is
written to disk before the failure. -/
theorem C9_missing_file_400 (env : ReqEnv) (h : env.fileField = none) :
    convert_file env = (HttpResponse.json 400 "No file uploaded", ([] : List Step)) :=
  convert_file_noFile env h

/-- Witness for C9 at a request carrying only a conversion type. -/
theorem C9_missing_file_400_witness :
    convert_file ⟨none, [], some "pdf-to-docx", [], "t0", none⟩
      = (HttpResponse.json 400 "No file uploaded", ([] : List Step)) :=
  C9_missing_file_400 _ rfl

/-- Claim C10: when the file part and the type field are both present but
the type is unrecognized, the upload IS saved under its sanitized name
before the 400 response is produced — the invalid-type rejection is not
side-effect free. -/
theorem C10_invalid_type_still_saves (env : ReqEnv) (orig t : String)
    (hf : env.fileField = some orig) (ht : env.typeField = some t) (ht0 : t ≠ "")
    (hp : t ≠ "pdf-to-docx") (hd : t ≠ "docx-to-pdf") :
    convert_file env = (HttpResponse.json 400 "Invalid conversion type",
      [Step.saved (UPLOAD_FOLDER ++ "/" ++ secure_filename orig)]) :=
  convert_file_invalid env orig t hf ht ht0 hp hd

/-- Witness for C10 at the unrecognized type value `"gif-to-pdf"`. -/
theorem C10_invalid_type_still_saves_witness :
    convert_file ⟨some "b report.docx", [], some "gif-to-pdf", [], "t1", none⟩
      = (HttpResponse.json 400 "Invalid conversion type",
        [Step.saved (UPLOAD_FOLDER ++ "/" ++ secure_filename "b report.docx")]) :=
  C10_invalid_type_still_saves _ "b report.docx" "gif-to-pdf" rfl rfl (by decide) (by decide)
    (by decide)

/-- Claim C3: for every successfully converted request, the artifact path's
extension and the declared response mimetype match the conversion type:
`docx-to-pdf` yields a `.pdf` path with `application/pdf`, `pdf-to-docx`
yields a `.docx` path with the OOXML word-processing mimetype. -/
theorem C3_ext_matches_mime (env : ReqEnv) (p nm mt : String)
    (h : (convert_file env).1 = HttpResponse.fileResp 200 p nm mt) :
    (env.typeField = some "docx-to-pdf" → (∃ b, p = b ++ ".pdf") ∧ mt = "application/pdf")
      ∧ (env.typeField = some "pdf-to-docx" → (∃ b, p = b ++ ".docx") ∧ mt = OOXML_MIME) := by
  cases hf : env.fileField with
  | none =>
    rw [convert_file_noFile env hf] at h
    simp at h
  | some orig =>
    obtain ⟨-, hcase | hcase⟩ := fileResp_shape env orig p nm mt hf h
    · obtain ⟨ht, hpath, -, hmt⟩ := hcase
      refine ⟨fun hco => ?_, fun _ => ⟨⟨_, hpath⟩, hmt⟩⟩
      rw [ht] at hco
      simp at hco
    · obtain ⟨ht, hpath, -, hmt⟩ := hcase
      refine ⟨fun _ => ⟨⟨_, hpath⟩, hmt⟩, fun hco => ?_⟩
      rw [ht] at hco
      simp at hco

/-- Witness for C3 at a `docx-to-pdf` conversion. -/
theorem C3_ext_matches_mime_witness :
    (∃ b, ("/backend/converted/a-t0.pdf" : String) = b ++ ".pdf")
      ∧ ("application/pdf" : String) = "application/pdf" :=
  (C3_ext_matches_mime ⟨some "a.docx", [], some "docx-to-pdf", [], "t0", some 3⟩
    "/backend/converted/a-t0.pdf" "a-t0.pdf" "application/pdf" (by decide)).1 rfl

/-- Claim C4: for every untrusted original filename, the stored upload's
path — the upload directory joined with the sanitized name — lexically
resolves to a path that stays inside the upload directory: its resolved
components extend the resolved components of the upload directory. -/
theorem C4_upload_path_contained (orig : String) :
    ∃ extra,
      resolve [] (splitChars '/' (UPLOAD_FOLDER ++ "/" ++ secure_filename orig).data)
        = resolve [] (splitChars '/' UPLOAD_FOLDER.data) ++ extra := by
  have hdata : (UPLOAD_FOLDER ++ "/" ++ secure_filename orig).data
      = UPLOAD_FOLDER.data ++ '/' :: (secure_filename orig).data := by
    rw [strDataAppend, strDataAppend]
    simp
  rw [hdata, splitChars_append]
  rw [splitChars_no_sep (fun c hc => secure_filename_no_sep hc)]
  have hU : splitChars '/' UPLOAD_FOLDER.data
      = [[], "backend".data, "uploads".data] := by decide
  rw [hU]
  have hRes : resolve [] [[], "backend".data, "uploads".data]
      = ["backend".data, "uploads".data] := by decide
  rw [hRes]
  have hsteps : resolve []
        ([[], "backend".data, "uploads".data] ++ [(secure_filename orig).data])
      = resolve ["uploads".data, "backend".data] [(secure_filename orig).data] := by
    rw [show ([[], "backend".data, "uploads".data] ++ [(secure_filename orig).data])
        = [] :: "backend".data :: "uploads".data :: [(secure_filename orig).data] from by simp]
    rw [resolve_skip _ _ _ (Or.inl rfl)]
    rw [resolve_push _ _ _ (by decide) (by decide)]
    rw [resolve_push _ _ _ (by decide) (by decide)]
  rw [hsteps]
  by_cases hskip : (secure_filename orig).data = [] ∨ (secure_filename orig).data = ['.']
  · rw [resolve_skip _ _ _ hskip, resolve_end]
    exact ⟨[], by simp⟩
  · rw [resolve_push _ _ _ hskip ((secure_filename_no_nav orig).2), resolve_end]
    exact ⟨[(secure_filename orig).data], by simp⟩

/-- Claim C2 is false as stated: the handler checks only that the converted
path exists, it never validates the size (the size is only printed), so a
zero-byte artifact is still answered with a 200 file response. -/
theorem C2_counterexample : ¬ sizeConfirmedBeforeSend := by
  intro hclaim
  obtain ⟨n, hn, hpos⟩ := hclaim ⟨some "a.pdf", [], some "pdf-to-docx", [], "t0", some 0⟩
    "/backend/converted/a-t0.docx" "a-t0.docx" OOXML_MIME (by decide)
  simp at hn
  omega

/-- Claim C2, amended: a 200 file response is sent exactly when the request
reaches the response-sending step and the artifact exists (its size is not
validated); when the artifact is missing after conversion the handler
answers a 500 JSON error naming the missing converted path. -/
theorem C2_amended_sendcheck (env : ReqEnv) :
    (convert_file env).1.is200File = (reachesSend env && env.artifactSize.isSome)
      ∧ (reachesSend env = true → env.artifactSize = none →
          ∃ cp, (convert_file env).1
            = HttpResponse.json 500 ("Conversion failed: Converted file not found: " ++ cp)) := by
  constructor
  · cases hf : env.fileField with
    | none =>
      rw [convert_file_noFile env hf]
      simp [HttpResponse.is200File, reachesSend, hf]
    | some orig =>
      cases ht : env.typeField with
      | none =>
        rw [convert_file_noType env orig hf (by rw [ht]; rfl)]
        simp [HttpResponse.is200File, reachesSend, ht]
      | some t =>
        by_cases ht0 : t = ""
        · rw [convert_file_noType env orig hf (by rw [ht, ht0]; rfl)]
          simp [HttpResponse.is200File, reachesSend, ht, ht0]
        · by_cases hp : t = "pdf-to-docx"
          · subst hp
            rw [convert_file_p2d env orig hf ht]
            cases hs : env.artifactSize with
            | none => simp [respond, HttpResponse.is200File, reachesSend, hf, ht, hs]
            | some k => simp [respond, HttpResponse.is200File, reachesSend, hf, ht, hs]
          · by_cases hd : t = "docx-to-pdf"
            · subst hd
              rw [convert_file_d2p env orig hf ht]
              cases hs : env.artifactSize with
              | none => simp [respond, HttpResponse.is200File, reachesSend, hf, ht, hs]
              | some k => simp [respond, HttpResponse.is200File, reachesSend, hf, ht, hs]
            · rw [convert_file_invalid env orig t hf ht ht0 hp hd]
              simp [HttpResponse.is200File, reachesSend, ht, hp, hd]
  · intro hreach hnone
    cases hf : env.fileField with
    | none => simp [reachesSend, hf] at hreach
    | some orig =>
      cases ht : env.typeField with
      | none => simp [reachesSend, ht] at hreach
      | some t =>
        by_cases hp : t = "pdf-to-docx"
        · subst hp
          rw [convert_file_p2d env orig hf ht]
          exact ⟨CONVERTED_FOLDER ++ "/"
              ++ (beforeFirstDot (secure_filename orig) ++ "-" ++ env.token) ++ ".docx",
            by simp [respond, hnone]⟩
        · by_cases hd : t = "docx-to-pdf"
          · subst hd
            rw [convert_file_d2p env orig hf ht]
            exact ⟨CONVERTED_FOLDER ++ "/"
                ++ (beforeFirstDot (secure_filename orig) ++ "-" ++ env.token) ++ ".pdf",
              by simp [respond, hnone]⟩
          · simp [reachesSend, ht, hp, hd] at hreach

/-- Witness for the amended C2: a missing artifact yields the 500 error. -/
theorem C2_amended_sendcheck_witness :
    ∃ cp, (convert_file ⟨some "a.pdf", [], some "pdf-to-docx", [], "t0", none⟩).1
      = HttpResponse.json 500 ("Conversion failed: Converted file not found: " ++ cp) :=
  (C2_amended_sendcheck ⟨some "a.pdf", [], some "pdf-to-docx", [], "t0", none⟩).2
    (by decide) rfl

/-- Claim C5 is false as stated: the code derives the artifact's base from
`filename.split('.')[0]` — everything before the FIRST dot — not from the
base name minus its extension; they differ on any sanitized name with two
or more dots, e.g. `"my.report.docx"`. -/
theorem C5_counterexample : ¬ artifactNamedFromBase := by
  intro hclaim
  have h := hclaim ⟨some "my.report.docx", [], some "docx-to-pdf", [], "deadbeef", some 5⟩
    "my.report.docx" "/backend/converted/my-deadbeef.pdf" "my-deadbeef.pdf" "application/pdf"
    rfl (by decide)
  exact absurd h (by decide)

/-- Claim C5, amended: the artifact's download name is the part of the
sanitized filename before the FIRST dot, a hyphen, the random token, and
the extension determined by the target format. -/
theorem C5_amended_firstDotName (env : ReqEnv) (orig p nm mt : String)
    (hf : env.fileField = some orig) (htok : noSlash env.token = true)
    (h : (convert_file env).1 = HttpResponse.fileResp 200 p nm mt) :
    nm = beforeFirstDot (secure_filename orig) ++ "-" ++ env.token
      ++ (if env.typeField = some "pdf-to-docx" then ".docx" else ".pdf") :=
  downloadName_shape env orig p nm mt hf htok h

/-- Witness for the amended C5 at the two-dot filename. -/
theorem C5_amended_firstDotName_witness :
    ("my-deadbeef.pdf" : String)
      = beforeFirstDot (secure_filename "my.report.docx") ++ "-" ++ "deadbeef"
        ++ (if (some "docx-to-pdf" : Option String) = some "pdf-to-docx"
            then ".docx" else ".pdf") :=
  C5_amended_firstDotName ⟨some "my.report.docx", [], some "docx-to-pdf", [], "deadbeef", some 5⟩
    "my.report.docx" "/backend/converted/my-deadbeef.pdf" "my-deadbeef.pdf" "application/pdf"
    rfl (by decide) (by decide)

/-- Claim C7: two requests for the same input that differ only in the random
token (and in the observed artifact state) produce artifacts with different
download names while the converted content — a function of the source input
and the two opaque converters only — is identical. -/
theorem C7_same_content_distinct_names (p2d : List Nat → List Nat)
    (ser : List CanvasOp → List Nat) (env1 env2 : ReqEnv)
    (orig p1 nm1 mt1 p2 nm2 mt2 : String)
    (hfe : env1.fileField = env2.fileField) (hte : env1.typeField = env2.typeField)
    (hbe : env1.fileBytes = env2.fileBytes) (hpe : env1.docxParas = env2.docxParas)
    (htok : env1.token ≠ env2.token)
    (htok1 : noSlash env1.token = true) (htok2 : noSlash env2.token = true)
    (hf1 : env1.fileField = some orig)
    (h1 : (convert_file env1).1 = HttpResponse.fileResp 200 p1 nm1 mt1)
    (h2 : (convert_file env2).1 = HttpResponse.fileResp 200 p2 nm2 mt2) :
    nm1 ≠ nm2 ∧ artifactBytes p2d ser env1 = artifactBytes p2d ser env2 := by
  have hf2 : env2.fileField = some orig := by rw [← hfe]; exact hf1
  have hn1 := downloadName_shape env1 orig p1 nm1 mt1 hf1 htok1 h1
  have hn2 := downloadName_shape env2 orig p2 nm2 mt2 hf2 htok2 h2
  constructor
  · rw [hn1, hn2, ← hte]
    intro hcontra
    apply htok
    have hdata := congrArg String.data hcontra
    simp only [strDataAppend] at hdata
    exact strEqOfData (List.append_cancel_left (List.append_cancel_right hdata))
  · simp only [artifactBytes, hf1, hf2, ← hte, ← hbe, ← hpe]

/-- Witness for C7 with tokens `"aa"` and `"bb"` on the same DOCX input. -/
theorem C7_same_content_distinct_names_witness :
    ("a-aa.pdf" : String) ≠ "a-bb.pdf"
      ∧ artifactBytes id (fun _ => [])
          ⟨some "a.docx", [], some "docx-to-pdf", ["x"], "aa", some 1⟩
        = artifactBytes id (fun _ => [])
          ⟨some "a.docx", [], some "docx-to-pdf", ["x"], "bb", some 1⟩ :=
  C7_same_content_distinct_names id (fun _ => [])
    ⟨some "a.docx", [], some "docx-to-pdf", ["x"], "aa", some 1⟩
    ⟨some "a.docx", [], some "docx-to-pdf", ["x"], "bb", some 1⟩
    "a.docx" "/backend/converted/a-aa.pdf" "a-aa.pdf" "application/pdf"
    "/backend/converted/a-bb.pdf" "a-bb.pdf" "application/pdf"
    rfl rfl rfl rfl (by decide) (by decide) (by decide) rfl (by decide) (by decide)

/-- Claim C6 is false as stated: the per-page line capacity is 38 (the loop
draws 38 lines before its page break fires), yet at exactly 38 paragraphs
the handler emits `showPage()` followed by `setFont()`, and ReportLab's
`save` flushes that trailing page because `setFont` left pending code — so
the output PDF has two pages where the claim asserts one. -/
theorem C6_counterexample : ¬ onePageWithinCapacity := by
  intro h
  have h38 := (h (List.replicate 38 "a") (List.replicate 39 "a")
    (by decide) (by decide) (by decide)).1
  exact absurd h38 (by decide)

/-- Claim C6, amended: with only single-line paragraphs, any count N with
1 ≤ N ≤ 37 — strictly below the 38-line page capacity — yields an output
PDF with exactly one page; at N = 38 the page break fired by the loop plus
ReportLab's save-flush of the freshly fonted page already yield two pages
(the second blank); N = 39 likewise yields two pages, the second carrying
the 39th line. -/
theorem C6_amended_page_counts (paras1 paras2 paras3 : List String)
    (h1 : 1 ≤ paras1.length) (h2 : paras1.length ≤ 37)
    (h3 : paras2.length = 38) (h4 : paras3.length = 39) :
    pdfPages (renderDocx paras1) false = 1
      ∧ pdfPages (renderDocx paras2) false = 2
      ∧ pdfPages (renderDocx paras3) false = 2 := by
  refine ⟨?_, ?_, ?_⟩ <;> rw [pdfPages_renderDocx] <;> omega

/-- Witness for the amended C6 at 1, 38 and 39 paragraphs. -/
theorem C6_amended_page_counts_witness :
    pdfPages (renderDocx ["a"]) false = 1
      ∧ pdfPages (renderDocx (List.replicate 38 "a")) false = 2
      ∧ pdfPages (renderDocx (List.replicate 39 "a")) false = 2 :=
  C6_amended_page_counts ["a"] (List.replicate 38 "a") (List.replicate 39 "a")
    (by decide) (by decide) (by decide) (by decide)
